import Mathlib

/-!
# Verification of the ray_scalper trade execution core (`swap.py`)

A shallow embedding of the `TradingBot` core of `swap.py`:

* `verify_token_balance` — the balance verifier (`swap.py:165-187`),
  modelled over an explicit list of read outcomes (`none` = a failed
  read / missing account, `some info` = a successful reading).
* `execute_trade` — the trade executor (`swap.py:189-317`), modelled as
  a fuel-bounded retry loop over an environment that supplies, per
  attempt, the outcomes of every external interaction (clock, SOL
  balance, balance reads, swap-gateway reply, RPC reply, price fetch).
* the position-monitor pieces of `monitor_token` (`swap.py:350-413`):
  the exit-trigger evaluation and the escalating sell-retry loop.

Python `Decimal` values are modelled as `ℚ`, raw token amounts as `ℤ`,
and Python's truncating `int(·)` conversion as `pyInt`.
-/

namespace RayScalper

/-- A token balance reading as returned by `get_token_account_info`
(`swap.py:153-157`): raw integer amount, decimals, ui amount. -/
structure TokenInfo where
  raw_amount : ℤ
  decimals : ℕ
  ui_amount : ℚ
deriving DecidableEq

/-- The mutable `TradingBot` state touched by `execute_trade`
(`swap.py:38-48`). -/
structure BotState where
  currentPosition : Option String
  positionOpenTime : Option ℚ
  buyPrice : ℚ
  cooldownEndTime : ℚ
  tradesExecuted : ℕ
  totalProfit : ℚ
deriving DecidableEq

/-- The immutable `TradingBot` configuration used in swap requests. -/
structure BotConfig where
  sol_mint : String
  wallet_address : String
deriving DecidableEq

/-- The query parameters of a swap-gateway request
(`swap.py:213-221`, `swap.py:233-241`). `amount` and
`priorityMicroLamports` are string-encoded integers in the source;
we keep them as `ℤ`. -/
structure SwapParams where
  fromMint : String
  toMint : String
  amount : ℤ
  slippage : ℤ
  priorityMicroLamports : ℤ
  owner : String
  provider : String
deriving DecidableEq

/-- `TradeAction` (`swap.py:16-18`). -/
inductive TradeAction
  | BUY
  | SELL
deriving DecidableEq

/-- Python truncating `int(·)` on a `Decimal`, i.e. rounding toward
zero. -/
def pyInt (q : ℚ) : ℤ :=
  if q < 0 then -((-q).floor) else q.floor

/-! ## Balance verifier (`swap.py:165-187`)

`verifyBalanceAux reads confirmations last_info` runs the body of the
`for _ in range(min_retries)` loop over the remaining list of read
outcomes, returning `(valid, last_info, reads consumed)`.  The caller
supplies exactly the readings the loop would attempt (one list entry
per loop iteration, so `reads.length = min_retries`); the third
component counts how many entries were actually consumed before the
function returned. -/

def verifyBalanceAux : List (Option TokenInfo) → ℕ → Option TokenInfo →
    Bool × Option TokenInfo × ℕ
  | [], conf, last => (decide (2 ≤ conf), last, 0)
  | none :: rest, conf, last =>
      let r := verifyBalanceAux rest conf last
      (r.1, r.2.1, r.2.2 + 1)
  | some ti :: rest, conf, last =>
      if ti.raw_amount ≤ 0 then (false, none, 1)
      else
        let conf' :=
          match last with
          | some l => if ti.raw_amount = l.raw_amount then conf + 1 else 0
          | none => 0
        let r := verifyBalanceAux rest conf' (some ti)
        (r.1, r.2.1, r.2.2 + 1)

/-- `verify_token_balance` (`swap.py:165-187`): the `(valid, reading)`
pair returned to the caller. -/
def verify_token_balance (reads : List (Option TokenInfo)) :
    Bool × Option TokenInfo :=
  ((verifyBalanceAux reads 0 none).1, (verifyBalanceAux reads 0 none).2.1)

/-- How many reads `verify_token_balance` actually performs on the
given outcome list (it stops early on a non-positive reading). -/
def verifyReadsConsumed (reads : List (Option TokenInfo)) : ℕ :=
  (verifyBalanceAux reads 0 none).2.2

/-! ### Spec-side confirmation counter

Modelled from the claim's words (for the refinement direction of C1):
"the confirmation counter — incremented when the current raw amount
equals the immediately preceding one, reset to 0 on any change". -/

def specCounterGo : ℕ → Option ℤ → List ℤ → ℕ
  | conf, _, [] => conf
  | conf, last, a :: rest =>
      let conf' :=
        match last with
        | some l => if a = l then conf + 1 else 0
        | none => 0
      specCounterGo conf' (some a) rest

/-- The claim's confirmation counter, evaluated over a sequence of raw
amounts. -/
def specCounter (raws : List ℤ) : ℕ :=
  specCounterGo 0 none raws

/-- A successful reading with raw amount 100 (scenario input). -/
def r100 : TokenInfo := ⟨100, 6, 100⟩

/-- A successful reading with raw amount 50 (scenario input). -/
def r50 : TokenInfo := ⟨50, 6, 50⟩

/-- A successful reading with raw amount 0 (scenario input). -/
def r0 : TokenInfo := ⟨0, 6, 0⟩

/-! ## Trade executor (`swap.py:189-317`)

One `execute_trade` call is a loop of up to `max_retries + 1 = 4`
attempts.  Each attempt interacts with the outside world; the
`AttemptEnv` for attempt `k` records the outcome of each of those
interactions, so the model is a pure function of the environment. -/

/-- The network interactions one attempt can perform, in order.  Used
to state "no network client was invoked" and "which swap request was
issued". -/
inductive NetOp
  | getSolBalance
  | getAccountInfo
  | swapRequest (p : SwapParams)
  | sendTransaction
  | priceFetch
deriving DecidableEq

/-- Outcomes of the external interactions of one attempt of
`execute_trade`:

* `nowTime` — `time.time()` at the cooldown check (`swap.py:201`);
* `solBalance` — the result of `get_sol_balance` (`swap.py:207`; that
  helper catches its own errors and returns 0);
* `verifyReads` — the balance-read outcomes consumed by
  `verify_token_balance` on the SELL path (`swap.py:223`);
* `swapNetError` — a network error (`aiohttp.ClientError` /
  `asyncio.TimeoutError`) while querying the swap gateway;
* `swapSuccess` — the gateway's `success` field (`swap.py:249`);
* `txNetError` — a network error while posting `sendTransaction`;
* `rpcError` — `some msg` when the RPC reply carries an `error` field
  with message `msg` (`swap.py:275-276`), `none` on acceptance;
* `priceAtFill` — the result of `get_token_price` after acceptance
  (`swap.py:286`, `swap.py:296`; 0 encodes a failed fetch);
* `fillTime` — `time.time()` at the post-acceptance bookkeeping
  (`swap.py:292`, `swap.py:303`). -/
structure AttemptEnv where
  nowTime : ℚ
  solBalance : ℚ
  verifyReads : List (Option TokenInfo)
  swapNetError : Bool
  swapSuccess : Bool
  txNetError : Bool
  rpcError : Option String
  priceAtFill : ℚ
  fillTime : ℚ
deriving DecidableEq

/-- Result of one attempt: terminal (`done`), or a transient condition
that the retry loop may continue past (`netTransient` for the
`except (aiohttp.ClientError, asyncio.TimeoutError)` handler at
`swap.py:307-313`, `rpcTransient` for the transient-RPC-message
`continue` at `swap.py:277-280`).  Each carries the network operations
the attempt performed. -/
inductive AttemptResult
  | done (success : Bool) (st : BotState) (ops : List NetOp)
  | netTransient (ops : List NetOp)
  | rpcTransient (ops : List NetOp)
deriving DecidableEq

/-- The network operations an attempt performed. -/
def attemptOps : AttemptResult → List NetOp
  | .done _ _ ops => ops
  | .netTransient ops => ops
  | .rpcTransient ops => ops

/-- Whether an attempt ended in a condition the loop retries past. -/
def attemptTransient : AttemptResult → Bool
  | .done _ _ _ => false
  | .netTransient _ => true
  | .rpcTransient _ => true

/-- Substring test, modelling Python's case-sensitive `in` on
strings. -/
def strContainsSub (pat : List Char) : List Char → Bool
  | [] => pat.isEmpty
  | c :: rest => pat.isPrefixOf (c :: rest) || strContainsSub pat rest

/-- The transient-RPC-error classifier of `swap.py:277`:
`any(msg in error_msg for msg in ['Blockhash not found',
'Transaction was not confirmed'])`. -/
def isTransientMsg (msg : String) : Bool :=
  strContainsSub "Blockhash not found".data msg.data ||
    strContainsSub "Transaction was not confirmed".data msg.data

/-- `retry_delay` (`swap.py:193`). -/
def retry_delay : ℚ := 1 / 2

/-- The backoff slept before the retry following (0-based) attempt
`i`: `retry_delay * (attempt + 1)` (`swap.py:279`, `swap.py:310`). -/
def delayF (i : ℕ) : ℚ := retry_delay * ((i : ℚ) + 1)

/-- The tail of one attempt shared by both actions (`swap.py:243-305`):
issue the swap request, sign and send the transaction, classify the
RPC result, and on acceptance do the per-action bookkeeping.
`sellInfo` is the verified reading on the SELL path (`none` on BUY). -/
def afterParams (token : String) (action : TradeAction)
    (sellInfo : Option TokenInfo) (params : SwapParams)
    (a : AttemptEnv) (st : BotState) (ops0 : List NetOp) : AttemptResult :=
  let ops1 := ops0 ++ [NetOp.swapRequest params]
  if a.swapNetError then .netTransient ops1
  else if ¬ a.swapSuccess then .done false st ops1
  else
    let ops2 := ops1 ++ [NetOp.sendTransaction]
    if a.txNetError then .netTransient ops2
    else
      match a.rpcError with
      | some msg =>
          if isTransientMsg msg then .rpcTransient ops2
          else .done false st ops2
      | none =>
          let ops3 := ops2 ++ [NetOp.priceFetch]
          match action with
          | .BUY =>
              let p := a.priceAtFill
              let st1 := { st with buyPrice := p }
              if p = 0 then .done false st1 ops3
              else
                .done true
                  { st1 with
                    currentPosition := some token,
                    positionOpenTime := some a.fillTime,
                    tradesExecuted := st1.tradesExecuted + 1 } ops3
          | .SELL =>
              let sp := a.priceAtFill
              let st1 :=
                match sellInfo with
                | some ti =>
                    if sp = 0 then st
                    else
                      { st with totalProfit :=
                          st.totalProfit + (sp - st.buyPrice) * ti.ui_amount }
                | none => st
              .done true
                { st1 with
                  currentPosition := none,
                  positionOpenTime := none,
                  cooldownEndTime := a.fillTime + 15 } ops3

/-- The BUY branch of one attempt (`swap.py:200-221`): cooldown gate,
dust-threshold gate on the SOL balance, then the fixed-parameter swap
request for 10% of the balance. -/
def buyAttempt (cfg : BotConfig) (token : String)
    (a : AttemptEnv) (st : BotState) : AttemptResult :=
  if a.nowTime < st.cooldownEndTime then .done false st []
  else if a.solBalance < 1 / 10000 then .done false st [.getSolBalance]
  else
    afterParams token .BUY none
      { fromMint := cfg.sol_mint
        toMint := token
        amount := pyInt (a.solBalance * (1 / 10) * 10 ^ 9)
        slippage := 3000
        priorityMicroLamports := pyInt (1 / 10000 * 10 ^ 9)
        owner := cfg.wallet_address
        provider := "raydium" }
      a st [.getSolBalance]

/-- The SELL branch of one attempt (`swap.py:222-241`): verify the
balance, then sell exactly the verified raw amount with the caller's
slippage and priority multiplier. -/
def sellAttempt (cfg : BotConfig) (token : String)
    (priority_multiplier : ℚ) (slippage_bps : ℤ)
    (a : AttemptEnv) (st : BotState) : AttemptResult :=
  let readOps :=
    List.replicate (verifyReadsConsumed a.verifyReads) NetOp.getAccountInfo
  match verify_token_balance a.verifyReads with
  | (false, _) => .done false st readOps
  | (true, none) => .done false st readOps
  | (true, some ti) =>
      if ti.raw_amount ≤ 0 then .done false st readOps
      else
        afterParams token .SELL (some ti)
          { fromMint := token
            toMint := cfg.sol_mint
            amount := ti.raw_amount
            slippage := slippage_bps
            priorityMicroLamports := pyInt (1 / 10000 * 10 ^ 9 * priority_multiplier)
            owner := cfg.wallet_address
            provider := "raydium" }
          a st readOps

/-- One attempt of `execute_trade` (the body of the `for attempt`
loop, `swap.py:195-316`). -/
def runAttempt (cfg : BotConfig) (token : String) (action : TradeAction)
    (priority_multiplier : ℚ) (slippage_bps : ℤ)
    (a : AttemptEnv) (st : BotState) : AttemptResult :=
  match action with
  | .BUY => buyAttempt cfg token a st
  | .SELL => sellAttempt cfg token priority_multiplier slippage_bps a st

/-- The observable outcome of one `execute_trade` call: the returned
boolean, the final bot state, the network operations performed, the
number of attempts started, and the backoff delays slept between
attempts. -/
structure ExecOutcome where
  success : Bool
  finalState : BotState
  ops : List NetOp
  attempts : ℕ
  delays : List ℚ
deriving DecidableEq

/-- The `for attempt in range(max_retries + 1)` loop of
`execute_trade` (`swap.py:195-317`), as a fuel recursion: `n` is the
number of loop iterations left, `k` the 0-based index of the current
attempt, `used` the number of attempts already started.  Falling out
of the loop returns `False` (`swap.py:317`).  A network error retries
only while `k < max_retries` (`swap.py:308`); a transient RPC error
always sleeps and `continue`s (`swap.py:279-280`). -/
def execLoop (cfg : BotConfig) (token : String) (action : TradeAction)
    (priority_multiplier : ℚ) (slippage_bps : ℤ) (env : ℕ → AttemptEnv) :
    ℕ → ℕ → BotState → List NetOp → List ℚ → ℕ → ExecOutcome
  | 0, _, st, ops, delays, used => ⟨false, st, ops, used, delays⟩
  | n + 1, k, st, ops, delays, used =>
      match runAttempt cfg token action priority_multiplier slippage_bps (env k) st with
      | .done b st' aops => ⟨b, st', ops ++ aops, used + 1, delays⟩
      | .netTransient aops =>
          if k < 3 then
            execLoop cfg token action priority_multiplier slippage_bps env
              n (k + 1) st (ops ++ aops) (delays ++ [delayF k]) (used + 1)
          else ⟨false, st, ops ++ aops, used + 1, delays⟩
      | .rpcTransient aops =>
          execLoop cfg token action priority_multiplier slippage_bps env
            n (k + 1) st (ops ++ aops) (delays ++ [delayF k]) (used + 1)

/-- `execute_trade` (`swap.py:189-317`): run up to `max_retries + 1 =
4` attempts from attempt 0. -/
def execute_trade (cfg : BotConfig) (token : String) (action : TradeAction)
    (priority_multiplier : ℚ) (slippage_bps : ℤ) (env : ℕ → AttemptEnv)
    (st : BotState) : ExecOutcome :=
  execLoop cfg token action priority_multiplier slippage_bps env 4 0 st [] [] 0

/-! ## Position monitor (`swap.py:350-413`) -/

/-- The profit percentage computed by each monitor iteration
(`swap.py:358`). -/
def profitPct (buyPrice currentPrice : ℚ) : ℚ :=
  (currentPrice - buyPrice) / buyPrice * 100

/-- The possible exit triggers (`swap.py:361-365`). -/
inductive ExitReason
  | profitTarget
  | timeout
deriving DecidableEq

/-- The exit-trigger cascade of one monitor iteration
(`swap.py:361-365`): profit target first, then the 20-minute hold. -/
def exitTrigger (profit_pct time_held : ℚ) : Option ExitReason :=
  if 15 ≤ profit_pct then some .profitTarget
  else if 20 * 60 ≤ time_held then some .timeout
  else none

/-- One monitor iteration's exit decision (`swap.py:353-365`): a falsy
(zero) current price skips the iteration entirely, otherwise the
triggers are evaluated on the computed profit percentage and holding
time. -/
def monitorExitCheck (buyPrice currentPrice time_held : ℚ) : Option ExitReason :=
  if currentPrice = 0 then none
  else exitTrigger (profitPct buyPrice currentPrice) time_held

/-- What one sell attempt of the monitor's escalation loop observes:
`execute_trade` succeeded; it failed but the re-verification still
sees the balance; or it failed and the balance is gone
(`swap.py:385-401`). -/
inductive SellAttemptOutcome
  | sold
  | failStillHeld
  | failLost
deriving DecidableEq

/-- `multipliers` (`swap.py:382`), with `Decimal(str(m))` applied as in
the `execute_trade` call at `swap.py:389`. -/
def multipliers : List ℚ := [1, 3 / 2, 2, 3]

/-- `slippages` (`swap.py:383`). -/
def slippages : List ℤ := [2000, 3000, 4000, 5000]

/-- The escalation schedule as (priority multiplier, slippage bps)
tuples. -/
def sellSchedule : List (ℚ × ℤ) := multipliers.zip slippages

/-- The monitor's sell-retry loop (`swap.py:385-407`), abstracting each
`execute_trade` call and follow-up re-verification into an
`outcome` per attempt; returns the list of (priority multiplier,
slippage bps) arguments passed to `execute_trade`, in call order.
`fuel` bounds the loop, `k` is `retry_count`. -/
def sellEscalation (outcome : ℕ → SellAttemptOutcome) :
    ℕ → ℕ → List (ℚ × ℤ) → List (ℚ × ℤ)
  | 0, _, acc => acc
  | fuel + 1, k, acc =>
      if k < 4 then
        let used := acc ++ [(multipliers.getD k 0, slippages.getD k 0)]
        match outcome k with
        | .failStillHeld => sellEscalation outcome fuel (k + 1) used
        | _ => used
      else acc

/-- The (priority multiplier, slippage) pairs the monitor passes to
`execute_trade` across its sell attempts. -/
def sellAttemptParams (outcome : ℕ → SellAttemptOutcome) : List (ℚ × ℤ) :=
  sellEscalation outcome 4 0 []

/-! ## Helper lemmas -/

/-- Evaluation form of `pyInt` in terms of `num`/`den` division. -/
theorem pyInt_eval (q : ℚ) :
    pyInt q = if q < 0 then -((-q).num / (-q).den) else q.num / q.den := by
  simp [pyInt, Rat.floor_def']

/-- A non-positive reading makes the verifier loop return
`(False, None)` at once, whatever came before (as long as the earlier
successful readings were positive) and whatever would come after. -/
theorem verifyBalanceAux_nonpos (z : TokenInfo) (hz : z.raw_amount ≤ 0)
    (pfx rest : List (Option TokenInfo)) :
    ∀ (conf : ℕ) (last : Option TokenInfo),
      (∀ ti ∈ pfx.filterMap id, 0 < ti.raw_amount) →
      verifyBalanceAux (pfx ++ some z :: rest) conf last =
        (false, none, pfx.length + 1) := by
  induction pfx with
  | nil =>
      intro conf last _
      simp [verifyBalanceAux, hz]
  | cons o pfx ih =>
      intro conf last hp
      cases o with
      | none =>
          have hp' : ∀ ti ∈ pfx.filterMap id, 0 < ti.raw_amount := by
            intro ti hti
            exact hp ti (by simpa using hti)
          simp only [List.cons_append, verifyBalanceAux, List.append_eq]
          rw [ih conf last hp']
          simp
      | some ti =>
          have hpos : 0 < ti.raw_amount := hp ti (by simp)
          have hp' : ∀ t ∈ pfx.filterMap id, 0 < t.raw_amount := by
            intro t ht
            exact hp t (by simp [ht])
          simp only [List.cons_append, verifyBalanceAux, List.append_eq]
          rw [if_neg (by omega)]
          rw [ih _ _ hp']
          simp

/-- Over all-successful positive readings, the verifier's internal
confirmation counter agrees with the spec-side counter
`specCounterGo`. -/
theorem verifyBalanceAux_map_some (tis : List TokenInfo) :
    ∀ (conf : ℕ) (last : Option TokenInfo),
      (∀ ti ∈ tis, 0 < ti.raw_amount) →
      (verifyBalanceAux (tis.map some) conf last).1 =
        decide (2 ≤ specCounterGo conf (last.map TokenInfo.raw_amount)
          (tis.map TokenInfo.raw_amount)) := by
  induction tis with
  | nil =>
      intro conf last _
      simp [verifyBalanceAux, specCounterGo]
  | cons ti tis ih =>
      intro conf last hp
      have hpos : 0 < ti.raw_amount := hp ti (by simp)
      have hp' : ∀ t ∈ tis, 0 < t.raw_amount := fun t ht => hp t (by simp [ht])
      simp only [List.map_cons, verifyBalanceAux, specCounterGo]
      rw [if_neg (by omega)]
      cases last with
      | none => simpa using ih 0 (some ti) hp'
      | some l =>
          by_cases he : ti.raw_amount = l.raw_amount
          · simpa [he] using ih (conf + 1) (some ti) hp'
          · simpa [he] using ih 0 (some ti) hp'

/-- Where an `execute_trade` loop run's final state and success come
from: either it never saw a terminal attempt (and returns `false` with
the entry state), or some attempt `j` in range returned `done` with
exactly the reported success flag and final state.  The bot state is
never mutated by a transient attempt, so every attempt runs against
the entry state `st`. -/
theorem execLoop_final (cfg : BotConfig) (token : String) (action : TradeAction)
    (pm : ℚ) (slip : ℤ) (env : ℕ → AttemptEnv) :
    ∀ (n k : ℕ) (st : BotState) (ops : List NetOp) (d : List ℚ) (u : ℕ),
      ((execLoop cfg token action pm slip env n k st ops d u).finalState = st ∧
        (execLoop cfg token action pm slip env n k st ops d u).success = false) ∨
      ∃ j st2 aops, k ≤ j ∧ j < k + n ∧
        runAttempt cfg token action pm slip (env j) st =
          .done (execLoop cfg token action pm slip env n k st ops d u).success st2 aops ∧
        (execLoop cfg token action pm slip env n k st ops d u).finalState = st2 ∧
        ∃ pre, (execLoop cfg token action pm slip env n k st ops d u).ops = pre ++ aops := by
  intro n
  induction n with
  | zero => intro k st ops d u; exact Or.inl ⟨rfl, rfl⟩
  | succ n ih =>
      intro k st ops d u
      cases h : runAttempt cfg token action pm slip (env k) st with
      | done b st2 aops =>
          exact Or.inr ⟨k, st2, aops, le_refl k, by omega,
            by simp [execLoop, h], by simp [execLoop, h],
            ops, by simp [execLoop, h]⟩
      | netTransient aops =>
          by_cases hk : k < 3
          · have h' := ih (k + 1) st (ops ++ aops) (d ++ [delayF k]) (u + 1)
            simp only [execLoop, h, if_pos hk]
            rcases h' with ⟨h1, h2⟩ | ⟨j, st2, aops2, hj1, hj2, hj3, hj4, pre, hj5⟩
            · exact Or.inl ⟨h1, h2⟩
            · exact Or.inr ⟨j, st2, aops2, by omega, by omega, hj3, hj4, pre, hj5⟩
          · refine Or.inl ?_
            simp [execLoop, h, hk]
      | rpcTransient aops =>
          have h' := ih (k + 1) st (ops ++ aops) (d ++ [delayF k]) (u + 1)
          simp only [execLoop, h]
          rcases h' with ⟨h1, h2⟩ | ⟨j, st2, aops2, hj1, hj2, hj3, hj4, pre, hj5⟩
          · exact Or.inl ⟨h1, h2⟩
          · exact Or.inr ⟨j, st2, aops2, by omega, by omega, hj3, hj4, pre, hj5⟩

/-- Every network operation of an `execute_trade` loop run comes from
the accumulator or from some attempt against the entry state. -/
theorem execLoop_ops_pred (cfg : BotConfig) (token : String)
    (action : TradeAction) (pm : ℚ) (slip : ℤ) (env : ℕ → AttemptEnv)
    (P : NetOp → Prop)
    (hA : ∀ j (st : BotState) x,
      x ∈ attemptOps (runAttempt cfg token action pm slip (env j) st) → P x) :
    ∀ (n k : ℕ) (st : BotState) (ops : List NetOp) (d : List ℚ) (u : ℕ),
      (∀ x ∈ ops, P x) →
      ∀ x ∈ (execLoop cfg token action pm slip env n k st ops d u).ops, P x := by
  intro n
  induction n with
  | zero => intro k st ops d u h0 x hx; exact h0 x hx
  | succ n ih =>
      intro k st ops d u h0 x hx
      have happ : ∀ aops, aops = attemptOps
          (runAttempt cfg token action pm slip (env k) st) →
          ∀ y ∈ ops ++ aops, P y := by
        intro aops ha y hy
        rcases List.mem_append.mp hy with hy | hy
        · exact h0 y hy
        · exact hA k st y (ha ▸ hy)
      revert hx
      cases h : runAttempt cfg token action pm slip (env k) st with
      | done b st2 aops =>
          intro hx
          simp only [execLoop, h] at hx
          exact happ aops (by rw [h]; rfl) x hx
      | netTransient aops =>
          intro hx
          by_cases hk : k < 3
          · simp only [execLoop, h, if_pos hk] at hx
            exact ih (k + 1) st (ops ++ aops) (d ++ [delayF k]) (u + 1)
              (happ aops (by rw [h]; rfl)) x hx
          · simp only [execLoop, h, if_neg hk] at hx
            exact happ aops (by rw [h]; rfl) x hx
      | rpcTransient aops =>
          intro hx
          simp only [execLoop, h] at hx
          exact ih (k + 1) st (ops ++ aops) (d ++ [delayF k]) (u + 1)
            (happ aops (by rw [h]; rfl)) x hx

/-- The attempt counter grows by at least one (when fuel remains) and
by at most the fuel. -/
theorem execLoop_attempts (cfg : BotConfig) (token : String)
    (action : TradeAction) (pm : ℚ) (slip : ℤ) (env : ℕ → AttemptEnv) :
    ∀ (n k : ℕ) (st : BotState) (ops : List NetOp) (d : List ℚ) (u : ℕ),
      u ≤ (execLoop cfg token action pm slip env n k st ops d u).attempts ∧
      (execLoop cfg token action pm slip env n k st ops d u).attempts ≤ u + n ∧
      (0 < n → u < (execLoop cfg token action pm slip env n k st ops d u).attempts) := by
  intro n
  induction n with
  | zero =>
      intro k st ops d u
      refine ⟨?_, ?_, ?_⟩ <;> simp [execLoop]
  | succ n ih =>
      intro k st ops d u
      cases h : runAttempt cfg token action pm slip (env k) st with
      | done b st2 aops =>
          simp only [execLoop, h]
          exact ⟨by omega, by omega, by omega⟩
      | netTransient aops =>
          by_cases hk : k < 3
          · simp only [execLoop, h, if_pos hk]
            have h' := ih (k + 1) st (ops ++ aops) (d ++ [delayF k]) (u + 1)
            exact ⟨by omega, by omega, by omega⟩
          · simp only [execLoop, h, if_neg hk]
            exact ⟨by omega, by omega, by omega⟩
      | rpcTransient aops =>
          simp only [execLoop, h]
          have h' := ih (k + 1) st (ops ++ aops) (d ++ [delayF k]) (u + 1)
          exact ⟨by omega, by omega, by omega⟩

/-- The delay list stays of the shape `[delayF 0, delayF 1, ...]`:
each retry after (0-based) attempt `i` sleeps `retry_delay * (i + 1)`,
linearly increasing. -/
theorem execLoop_delays (cfg : BotConfig) (token : String)
    (action : TradeAction) (pm : ℚ) (slip : ℤ) (env : ℕ → AttemptEnv) :
    ∀ (n k : ℕ) (st : BotState) (ops : List NetOp) (d : List ℚ) (u : ℕ),
      d = (List.range k).map delayF →
      ∃ m, (execLoop cfg token action pm slip env n k st ops d u).delays =
        (List.range m).map delayF := by
  intro n
  induction n with
  | zero => intro k st ops d u hd; exact ⟨k, hd⟩
  | succ n ih =>
      intro k st ops d u hd
      have hd' : d ++ [delayF k] = (List.range (k + 1)).map delayF := by
        rw [List.range_succ, List.map_append, hd]; rfl
      cases h : runAttempt cfg token action pm slip (env k) st with
      | done b st2 aops => exact ⟨k, by simp only [execLoop, h]; exact hd⟩
      | netTransient aops =>
          by_cases hk : k < 3
          · simp only [execLoop, h, if_pos hk]
            exact ih (k + 1) st (ops ++ aops) (d ++ [delayF k]) (u + 1) hd'
          · exact ⟨k, by simp only [execLoop, h, if_neg hk]; exact hd⟩
      | rpcTransient aops =>
          simp only [execLoop, h]
          exact ih (k + 1) st (ops ++ aops) (d ++ [delayF k]) (u + 1) hd'

/-- Retry discipline of the attempt loop (entered at attempt `k` with
`used = k` and `k + fuel = 4`): every attempt that was followed by
another one ended transiently, and a terminal (`done`) attempt ends
the loop at once with exactly its success flag. -/
theorem execLoop_retry_spec (cfg : BotConfig) (token : String)
    (action : TradeAction) (pm : ℚ) (slip : ℤ) (env : ℕ → AttemptEnv) :
    ∀ (n k : ℕ) (st : BotState) (ops : List NetOp) (d : List ℚ),
      k + n = 4 →
      (∀ i, k ≤ i →
        i + 1 < (execLoop cfg token action pm slip env n k st ops d k).attempts →
        attemptTransient (runAttempt cfg token action pm slip (env i) st) = true) ∧
      (∀ i b st2 aops, k ≤ i →
        i < (execLoop cfg token action pm slip env n k st ops d k).attempts →
        runAttempt cfg token action pm slip (env i) st = .done b st2 aops →
        (execLoop cfg token action pm slip env n k st ops d k).attempts = i + 1 ∧
        (execLoop cfg token action pm slip env n k st ops d k).success = b) := by
  intro n
  induction n with
  | zero =>
      intro k st ops d hk
      constructor
      · intro i hi hlt
        simp only [execLoop] at hlt
        omega
      · intro i b st2 aops hi hlt _
        simp only [execLoop] at hlt
        omega
  | succ n ih =>
      intro k st ops d hk
      cases h : runAttempt cfg token action pm slip (env k) st with
      | done b0 st0 aops0 =>
          constructor
          · intro i hi hlt
            simp only [execLoop, h] at hlt
            omega
          · intro i b st2 aops hi hlt hdone
            simp only [execLoop, h] at hlt ⊢
            have hik : i = k := by omega
            subst hik
            rw [h] at hdone
            cases hdone
            exact ⟨rfl, rfl⟩
      | netTransient aops0 =>
          by_cases hk2 : k < 3
          · have ih' := ih (k + 1) st (ops ++ aops0) (d ++ [delayF k]) (by omega)
            constructor
            · intro i hi hlt
              simp only [execLoop, h, if_pos hk2] at hlt
              rcases Nat.eq_or_lt_of_le hi with hik | hik
              · subst hik
                rw [h]
                rfl
              · exact ih'.1 i (by omega) hlt
            · intro i b st2 aops hi hlt hdone
              simp only [execLoop, h, if_pos hk2] at hlt ⊢
              rcases Nat.eq_or_lt_of_le hi with hik | hik
              · subst hik
                rw [h] at hdone
                cases hdone
              · exact ih'.2 i b st2 aops (by omega) hlt hdone
          · constructor
            · intro i hi hlt
              simp only [execLoop, h, if_neg hk2] at hlt
              omega
            · intro i b st2 aops hi hlt hdone
              simp only [execLoop, h, if_neg hk2] at hlt ⊢
              have hik : i = k := by omega
              subst hik
              rw [h] at hdone
              cases hdone
      | rpcTransient aops0 =>
          have ih' := ih (k + 1) st (ops ++ aops0) (d ++ [delayF k]) (by omega)
          constructor
          · intro i hi hlt
            simp only [execLoop, h] at hlt
            rcases Nat.eq_or_lt_of_le hi with hik | hik
            · subst hik
              rw [h]
              rfl
            · exact ih'.1 i (by omega) hlt
          · intro i b st2 aops hi hlt hdone
            simp only [execLoop, h] at hlt ⊢
            rcases Nat.eq_or_lt_of_le hi with hik | hik
            · subst hik
              rw [h] at hdone
              cases hdone
            · exact ih'.2 i b st2 aops (by omega) hlt hdone

/-- Statistics frame of the shared attempt tail on the SELL path: the
trade counter is untouched, and a failed attempt leaves the whole
state untouched. -/
theorem afterParams_SELL_frame (token : String) (ti : TokenInfo)
    (params : SwapParams) (a : AttemptEnv) (st st2 : BotState)
    (ops0 aops : List NetOp) (b : Bool)
    (h : afterParams token .SELL (some ti) params a st ops0 = .done b st2 aops) :
    st2.tradesExecuted = st.tradesExecuted ∧ (b = false → st2 = st) := by
  by_cases h1 : a.swapNetError
  · simp [afterParams, h1] at h
  · by_cases h2 : a.swapSuccess
    · by_cases h3 : a.txNetError
      · simp [afterParams, h1, h2, h3] at h
      · cases h4 : a.rpcError with
        | some msg =>
            by_cases h5 : isTransientMsg msg
            · simp [afterParams, h1, h2, h3, h4, h5] at h
            · simp [afterParams, h1, h2, h3, h4, h5] at h
              rcases h with ⟨hb, hst, _⟩
              subst hst
              exact ⟨rfl, fun _ => rfl⟩
        | none =>
            by_cases h6 : a.priceAtFill = 0
            · simp [afterParams, h1, h2, h3, h4, h6] at h
              rcases h with ⟨hb, hst, _⟩
              subst hb
              rw [← hst]
              exact ⟨rfl, by simp⟩
            · simp [afterParams, h1, h2, h3, h4, h6] at h
              rcases h with ⟨hb, hst, _⟩
              subst hb
              rw [← hst]
              exact ⟨rfl, by simp⟩
    · simp [afterParams, h1, h2] at h
      rcases h with ⟨hb, hst, _⟩
      subst hst
      exact ⟨rfl, fun _ => rfl⟩

/-- Full postcondition of a successful SELL attempt tail: the exact
request operations, the cleared position, the 15-second cooldown from
the fill time, and the profit accumulation — which is skipped when the
exit-price fetch returned 0. -/
theorem afterParams_SELL_done_true (token : String) (ti : TokenInfo)
    (params : SwapParams) (a : AttemptEnv) (st st2 : BotState)
    (ops0 aops : List NetOp)
    (h : afterParams token .SELL (some ti) params a st ops0 = .done true st2 aops) :
    aops = ops0 ++ [NetOp.swapRequest params, NetOp.sendTransaction, NetOp.priceFetch] ∧
    st2.currentPosition = none ∧
    st2.positionOpenTime = none ∧
    st2.cooldownEndTime = a.fillTime + 15 ∧
    st2.buyPrice = st.buyPrice ∧
    st2.totalProfit = (if a.priceAtFill = 0 then st.totalProfit
      else st.totalProfit + (a.priceAtFill - st.buyPrice) * ti.ui_amount) := by
  by_cases h1 : a.swapNetError
  · simp [afterParams, h1] at h
  · by_cases h2 : a.swapSuccess
    · by_cases h3 : a.txNetError
      · simp [afterParams, h1, h2, h3] at h
      · cases h4 : a.rpcError with
        | some msg =>
            by_cases h5 : isTransientMsg msg
            · simp [afterParams, h1, h2, h3, h4, h5] at h
            · simp [afterParams, h1, h2, h3, h4, h5] at h
        | none =>
            by_cases h6 : a.priceAtFill = 0
            · simp [afterParams, h1, h2, h3, h4, h6] at h
              rcases h with ⟨hst, hops⟩
              rw [← hst, ← hops]
              simp [h6, List.append_assoc]
            · simp [afterParams, h1, h2, h3, h4, h6] at h
              rcases h with ⟨hst, hops⟩
              rw [← hst, ← hops]
              simp [h6, List.append_assoc]
    · simp [afterParams, h1, h2] at h

/-- Statistics frame of the shared attempt tail on the BUY path: the
profit accumulator is untouched, and the trade counter is incremented
exactly on success. -/
theorem afterParams_BUY_frame (token : String)
    (params : SwapParams) (a : AttemptEnv) (st st2 : BotState)
    (ops0 aops : List NetOp) (b : Bool)
    (h : afterParams token .BUY none params a st ops0 = .done b st2 aops) :
    st2.totalProfit = st.totalProfit ∧
    st2.tradesExecuted = st.tradesExecuted + (if b then 1 else 0) := by
  by_cases h1 : a.swapNetError
  · simp [afterParams, h1] at h
  · by_cases h2 : a.swapSuccess
    · by_cases h3 : a.txNetError
      · simp [afterParams, h1, h2, h3] at h
      · cases h4 : a.rpcError with
        | some msg =>
            by_cases h5 : isTransientMsg msg
            · simp [afterParams, h1, h2, h3, h4, h5] at h
            · simp [afterParams, h1, h2, h3, h4, h5] at h
              rcases h with ⟨hb, hst, _⟩
              subst hb
              rw [← hst]
              simp
        | none =>
            by_cases h6 : a.priceAtFill = 0
            · simp [afterParams, h1, h2, h3, h4, h6] at h
              rcases h with ⟨hb, hst, _⟩
              subst hb
              rw [← hst]
              simp
            · simp [afterParams, h1, h2, h3, h4, h6] at h
              rcases h with ⟨hb, hst, _⟩
              subst hb
              rw [← hst]
              simp
    · simp [afterParams, h1, h2] at h
      rcases h with ⟨hb, hst, _⟩
      subst hb
      rw [← hst]
      simp

/-- A successful BUY attempt tail records the fetched (necessarily
nonzero) price as the buy price and opens the position. -/
theorem afterParams_BUY_done_true (token : String)
    (params : SwapParams) (a : AttemptEnv) (st st2 : BotState)
    (ops0 aops : List NetOp)
    (h : afterParams token .BUY none params a st ops0 = .done true st2 aops) :
    st2.buyPrice = a.priceAtFill ∧
    a.priceAtFill ≠ 0 ∧
    st2.currentPosition = some token ∧
    st2.positionOpenTime = some a.fillTime := by
  by_cases h1 : a.swapNetError
  · simp [afterParams, h1] at h
  · by_cases h2 : a.swapSuccess
    · by_cases h3 : a.txNetError
      · simp [afterParams, h1, h2, h3] at h
      · cases h4 : a.rpcError with
        | some msg =>
            by_cases h5 : isTransientMsg msg
            · simp [afterParams, h1, h2, h3, h4, h5] at h
            · simp [afterParams, h1, h2, h3, h4, h5] at h
        | none =>
            by_cases h6 : a.priceAtFill = 0
            · simp [afterParams, h1, h2, h3, h4, h6] at h
            · simp [afterParams, h1, h2, h3, h4, h6] at h
              rcases h with ⟨hst, _⟩
              rw [← hst]
              simp [h6]
    · simp [afterParams, h1, h2] at h

/-- Statistics frame of one BUY attempt. -/
theorem buyAttempt_frame (cfg : BotConfig) (token : String) (a : AttemptEnv)
    (st st2 : BotState) (aops : List NetOp) (b : Bool)
    (h : buyAttempt cfg token a st = .done b st2 aops) :
    st2.totalProfit = st.totalProfit ∧
    st2.tradesExecuted = st.tradesExecuted + (if b then 1 else 0) := by
  rw [buyAttempt] at h
  by_cases h1 : a.nowTime < st.cooldownEndTime
  · rw [if_pos h1] at h
    cases h
    simp
  · rw [if_neg h1] at h
    by_cases h2 : a.solBalance < 1 / 10000
    · rw [if_pos h2] at h
      cases h
      simp
    · rw [if_neg h2] at h
      exact afterParams_BUY_frame token _ a st st2 _ aops b h

/-- A successful BUY attempt recorded the nonzero fetched price and
opened the position; in particular the cooldown gate was passed. -/
theorem buyAttempt_done_true (cfg : BotConfig) (token : String) (a : AttemptEnv)
    (st st2 : BotState) (aops : List NetOp)
    (h : buyAttempt cfg token a st = .done true st2 aops) :
    st2.buyPrice = a.priceAtFill ∧
    a.priceAtFill ≠ 0 ∧
    st2.currentPosition = some token ∧
    st2.positionOpenTime = some a.fillTime ∧
    ¬ a.nowTime < st.cooldownEndTime := by
  rw [buyAttempt] at h
  by_cases h1 : a.nowTime < st.cooldownEndTime
  · rw [if_pos h1] at h
    simp at h
  · rw [if_neg h1] at h
    by_cases h2 : a.solBalance < 1 / 10000
    · rw [if_pos h2] at h
      simp at h
    · rw [if_neg h2] at h
      have h' := afterParams_BUY_done_true token _ a st st2 _ aops h
      exact ⟨h'.1, h'.2.1, h'.2.2.1, h'.2.2.2, h1⟩

/-- Statistics frame of one SELL attempt: the trade counter is never
touched, and a failed attempt leaves the state untouched. -/
theorem sellAttempt_frame (cfg : BotConfig) (token : String) (pm : ℚ)
    (slip : ℤ) (a : AttemptEnv) (st st2 : BotState) (aops : List NetOp) (b : Bool)
    (h : sellAttempt cfg token pm slip a st = .done b st2 aops) :
    st2.tradesExecuted = st.tradesExecuted ∧ (b = false → st2 = st) := by
  cases hv : verify_token_balance a.verifyReads with
  | mk valid info =>
      cases valid with
      | false =>
          simp [sellAttempt, hv] at h
          rcases h with ⟨hb, hst, _⟩
          subst hst
          exact ⟨rfl, fun _ => rfl⟩
      | true =>
          cases info with
          | none =>
              simp [sellAttempt, hv] at h
              rcases h with ⟨hb, hst, _⟩
              subst hst
              exact ⟨rfl, fun _ => rfl⟩
          | some ti =>
              by_cases hr : ti.raw_amount ≤ 0
              · simp [sellAttempt, hv, hr] at h
                rcases h with ⟨hb, hst, _⟩
                subst hst
                exact ⟨rfl, fun _ => rfl⟩
              · simp only [sellAttempt, hv, if_neg hr] at h
                exact afterParams_SELL_frame token ti _ a st st2 _ aops b h

/-- A successful SELL attempt: the balance verifier confirmed a
positive reading, exactly that raw amount was used as the swap
request's amount, the position fields were cleared, the 15-second
cooldown was opened, and the profit was accumulated unless the
exit-price fetch returned 0. -/
theorem sellAttempt_done_true (cfg : BotConfig) (token : String) (pm : ℚ)
    (slip : ℤ) (a : AttemptEnv) (st st2 : BotState) (aops : List NetOp)
    (h : sellAttempt cfg token pm slip a st = .done true st2 aops) :
    ∃ ti : TokenInfo,
      verify_token_balance a.verifyReads = (true, some ti) ∧
      0 < ti.raw_amount ∧
      aops = List.replicate (verifyReadsConsumed a.verifyReads) NetOp.getAccountInfo ++
        [NetOp.swapRequest ⟨token, cfg.sol_mint, ti.raw_amount, slip,
          pyInt (1 / 10000 * 10 ^ 9 * pm), cfg.wallet_address, "raydium"⟩,
         NetOp.sendTransaction, NetOp.priceFetch] ∧
      st2.currentPosition = none ∧
      st2.positionOpenTime = none ∧
      st2.cooldownEndTime = a.fillTime + 15 ∧
      st2.buyPrice = st.buyPrice ∧
      st2.totalProfit = (if a.priceAtFill = 0 then st.totalProfit
        else st.totalProfit + (a.priceAtFill - st.buyPrice) * ti.ui_amount) := by
  cases hv : verify_token_balance a.verifyReads with
  | mk valid info =>
      cases valid with
      | false => simp [sellAttempt, hv] at h
      | true =>
          cases info with
          | none => simp [sellAttempt, hv] at h
          | some ti =>
              by_cases hr : ti.raw_amount ≤ 0
              · simp [sellAttempt, hv, hr] at h
              · simp only [sellAttempt, hv, if_neg hr] at h
                have h' := afterParams_SELL_done_true token ti _ a st st2 _ aops h
                exact ⟨ti, rfl, by omega, h'.1, h'.2.1, h'.2.2.1, h'.2.2.2.1,
                  h'.2.2.2.2.1, h'.2.2.2.2.2⟩

/-! ## Claims C1 and C2 -/

/-- Claim C1, counterexample: the reading sequence `[100, 100, 50]`
has length `min_retries = 3` and contains two consecutive equal,
positive raw amounts (100, 100), yet `verify_token_balance` returns
`valid = false` on it: the confirmation counter is reset to 0 by the
final change, so it never reaches 2. -/
theorem C1_counterexample :
    (verify_token_balance [some r100, some r100, some r50]).1 = false := by
  decide

/-- Claim C1 (amended): for the reading sequence `[100, 100, 100]`
with `min_retries = 3` the verifier returns `(true, reading with
raw_amount 100)`; and over any sequence of successful positive
readings, `verify_token_balance` returns `valid = true` exactly when
the confirmation counter — incremented when the current raw amount
equals the immediately preceding one, reset to 0 on any change — ends
at ≥ 2 (which for `min_retries = 3` requires all three readings
equal, not merely two consecutive ones). -/
theorem C1_amended_thm :
    verify_token_balance [some r100, some r100, some r100] = (true, some r100) ∧
    ∀ tis : List TokenInfo, (∀ ti ∈ tis, 0 < ti.raw_amount) →
      (verify_token_balance (tis.map some)).1 =
        decide (2 ≤ specCounter (tis.map TokenInfo.raw_amount)) := by
  refine ⟨by decide, fun tis h => ?_⟩
  simpa [verify_token_balance, specCounter] using
    verifyBalanceAux_map_some tis 0 none h

/-- Claim C1 (amended), witness at the `[100, 100, 100]` scenario. -/
theorem C1_amended_witness :
    (verify_token_balance ([r100, r100, r100].map some)).1 =
      decide (2 ≤ specCounter ([r100, r100, r100].map TokenInfo.raw_amount)) :=
  C1_amended_thm.2 [r100, r100, r100] (by decide)

/-- Claim C2: a read sequence whose earlier successful readings are
positive and which then hits a zero-or-negative reading makes
`verify_token_balance` return `(false, none)` immediately after that
reading: the result ignores everything after it, and exactly
`pfx.length + 1` reads are attempted. -/
theorem C2_zero_read_fails (pfx rest : List (Option TokenInfo)) (z : TokenInfo)
    (hp : ∀ ti ∈ pfx.filterMap id, 0 < ti.raw_amount) (hz : z.raw_amount ≤ 0) :
    verify_token_balance (pfx ++ some z :: rest) = (false, none) ∧
    verifyReadsConsumed (pfx ++ some z :: rest) = pfx.length + 1 := by
  have h := verifyBalanceAux_nonpos z hz pfx rest 0 none hp
  simp [verify_token_balance, verifyReadsConsumed, h]

/-- Claim C2, witness at the `[100, 50, 0]` scenario: the verifier
returns `(false, none)` right after the third (zero) reading. -/
theorem C2_zero_read_fails_witness :
    verify_token_balance ([some r100, some r50] ++ some r0 :: []) = (false, none) ∧
    verifyReadsConsumed ([some r100, some r50] ++ some r0 :: []) =
      [some r100, some r50].length + 1 :=
  C2_zero_read_fails [some r100, some r50] [] r0 (by decide) (by decide)

/-! ## Concrete fixtures for the executor claims -/

/-- A concrete bot configuration. -/
def cfgC : BotConfig := ⟨"SOL", "me"⟩

/-- A concrete bot state: no position, buy price 2, no cooldown, no
trades yet, accumulated profit 7. -/
def stC : BotState := ⟨none, none, 2, 0, 0, 7⟩

/-- A bot state whose cooldown window ends at time 50. -/
def stCool : BotState := ⟨none, none, 2, 50, 0, 7⟩

/-- Three consecutive identical positive balance readings. -/
def threeGood : List (Option TokenInfo) := [some r100, some r100, some r100]

/-- An attempt in which everything succeeds for a SELL and the exit
price fetch returns 3. -/
def envSellOk : AttemptEnv := ⟨0, 5, threeGood, false, true, false, none, 3, 1000⟩

/-- An attempt in which the SELL transaction is accepted but the exit
price fetch fails (returns 0). -/
def envSellPrice0 : AttemptEnv := ⟨0, 5, threeGood, false, true, false, none, 0, 1000⟩

/-- An attempt whose RPC reply is an error with the lowercase message
"blockhash not found". -/
def envRpcLower : AttemptEnv :=
  ⟨0, 5, threeGood, false, true, false, some "blockhash not found", 1, 1000⟩

/-- An attempt in which everything succeeds for a BUY at time 100 with
SOL balance 5 and price 3. -/
def envBuyOk : AttemptEnv := ⟨100, 5, [], false, true, false, none, 3, 1000⟩

/-- A BUY attempt at time 0 (inside `stCool`'s cooldown window). -/
def envCool : AttemptEnv := ⟨0, 100, [], false, true, false, none, 3, 1000⟩

/-! ## Claim C3 -/

/-- Claim C3, counterexample: the claim classifies an RPC transaction
error whose message matches the substring "blockhash not found" as
transient (hence retried), but the source compares against the
capitalized `'Blockhash not found'` with Python's case-sensitive `in`
(`swap.py:277`): on an RPC error with message exactly
"blockhash not found" the executor returns false after a single
attempt, with no retry and no backoff sleep. -/
theorem C3_counterexample :
    (execute_trade cfgC "TOK" .SELL 1 2000 (fun _ => envRpcLower) stC).success = false ∧
    (execute_trade cfgC "TOK" .SELL 1 2000 (fun _ => envRpcLower) stC).attempts = 1 ∧
    (execute_trade cfgC "TOK" .SELL 1 2000 (fun _ => envRpcLower) stC).delays = [] := by
  refine ⟨rfl, rfl, rfl⟩

/-- Claim C3 (amended): `execute_trade` retries the whole attempt at
most 3 times (4 total attempts), with linearly increasing backoff
`retry_delay × attempt_number`, and only on classified-transient
conditions — network errors/timeouts, or RPC errors whose message
contains the case-sensitive substrings "Blockhash not found" or
"Transaction was not confirmed" (as `attemptTransient`/`isTransientMsg`
define); every terminal attempt outcome (unsuccessful swap response,
insufficient funds, balance-verification failure, unclassified RPC
error) ends the call immediately with that attempt's result. -/
theorem C3_amended_thm (cfg : BotConfig) (token : String) (action : TradeAction)
    (pm : ℚ) (slip : ℤ) (env : ℕ → AttemptEnv) (st : BotState) :
    1 ≤ (execute_trade cfg token action pm slip env st).attempts ∧
    (execute_trade cfg token action pm slip env st).attempts ≤ 4 ∧
    (∀ i, i + 1 < (execute_trade cfg token action pm slip env st).attempts →
      attemptTransient (runAttempt cfg token action pm slip (env i) st) = true) ∧
    (∀ i, i < (execute_trade cfg token action pm slip env st).delays.length →
      (execute_trade cfg token action pm slip env st).delays.get? i =
        some (retry_delay * ((i : ℚ) + 1))) ∧
    (∀ i b st2 aops, i < (execute_trade cfg token action pm slip env st).attempts →
      runAttempt cfg token action pm slip (env i) st = .done b st2 aops →
      (execute_trade cfg token action pm slip env st).attempts = i + 1 ∧
      (execute_trade cfg token action pm slip env st).success = b) := by
  unfold execute_trade
  obtain ⟨hA1, hA2, hA3⟩ := execLoop_attempts cfg token action pm slip env 4 0 st [] [] 0
  obtain ⟨m, hm⟩ := execLoop_delays cfg token action pm slip env 4 0 st [] [] 0 (by simp)
  obtain ⟨hT, hDone⟩ := execLoop_retry_spec cfg token action pm slip env 4 0 st [] [] (by omega)
  refine ⟨by omega, by omega, ?_, ?_, ?_⟩
  · intro i hi
    exact hT i (Nat.zero_le i) hi
  · intro i hi
    rw [hm] at hi ⊢
    rw [List.get?_map, List.get?_range (by simpa using hi)]
    rfl
  · intro i b st2 aops hi hd
    exact hDone i b st2 aops (Nat.zero_le i) hi hd

/-- Claim C3 (amended), witness: the terminal (non-transient) first
attempt of the counterexample environment ends the call at attempt 1
with result false. -/
theorem C3_amended_witness :
    (execute_trade cfgC "TOK" TradeAction.SELL 1 2000 (fun _ => envRpcLower) stC).attempts = 0 + 1 ∧
    (execute_trade cfgC "TOK" TradeAction.SELL 1 2000 (fun _ => envRpcLower) stC).success = false := by
  have h := C3_amended_thm cfgC "TOK" .SELL 1 2000 (fun _ => envRpcLower) stC
  refine h.2.2.2.2 0 false stC
    [NetOp.getAccountInfo, NetOp.getAccountInfo, NetOp.getAccountInfo,
     NetOp.swapRequest ⟨"TOK", cfgC.sol_mint, 100, 2000,
       pyInt (1 / 10000 * 10 ^ 9 * 1), cfgC.wallet_address, "raydium"⟩,
     NetOp.sendTransaction]
    ?_ rfl
  have h1 := h.1
  omega

/-! ## Claim C4 -/

/-- Claim C4: a BUY issued while `now < cooldown_end_time` returns
false from the very first attempt, with no retry, no backoff, no
network operation of any kind, and the bot state untouched. -/
theorem C4_cooldown_blocks_buy (cfg : BotConfig) (token : String) (pm : ℚ)
    (slip : ℤ) (env : ℕ → AttemptEnv) (st : BotState)
    (h : (env 0).nowTime < st.cooldownEndTime) :
    execute_trade cfg token .BUY pm slip env st = ⟨false, st, [], 1, []⟩ := by
  have hr : runAttempt cfg token .BUY pm slip (env 0) st = .done false st [] := by
    rw [runAttempt]
    rw [buyAttempt, if_pos h]
  show execLoop cfg token .BUY pm slip env (3 + 1) 0 st [] [] 0 = ⟨false, st, [], 1, []⟩
  simp [execLoop, hr]

/-- Claim C4, witness: a concrete BUY at time 0 against a cooldown
ending at time 50. -/
theorem C4_cooldown_blocks_buy_witness :
    execute_trade cfgC "TOK" .BUY 1 2000 (fun _ => envCool) stCool =
      ⟨false, stCool, [], 1, []⟩ :=
  C4_cooldown_blocks_buy cfgC "TOK" 1 2000 (fun _ => envCool) stCool (by decide)

/-! ## Claim C5 -/

/-- Claim C5, counterexample: a SELL whose transaction is accepted but
whose exit-price fetch fails (returns 0) still returns true, yet
leaves `total_profit` unchanged (`swap.py:297` guards the
accumulation with `if sell_price and token_info`), although the
claimed profit increment `(sell_price − buy_price) × held quantity =
(0 − 2) × 100` is nonzero.  The position is still cleared and the
cooldown still opened. -/
theorem C5_counterexample :
    (execute_trade cfgC "TOK" .SELL 1 2000 (fun _ => envSellPrice0) stC).success = true ∧
    (execute_trade cfgC "TOK" .SELL 1 2000 (fun _ => envSellPrice0) stC).finalState.totalProfit
      = stC.totalProfit ∧
    (envSellPrice0.priceAtFill - stC.buyPrice) * r100.ui_amount ≠ 0 := by
  refine ⟨rfl, rfl, by norm_num [envSellPrice0, stC, r100]⟩

/-- Claim C5 (amended): every SELL call of `execute_trade` that
returns true had some attempt `j < 4` on which the balance verifier
confirmed a positive reading; that reading's raw amount is the exact
amount of the issued swap request (the full position); the final state
has the position cleared and a 15-second cooldown window opened from
the fill time; and the realized profit `(sell_price − buy_price) ×
held ui quantity` is accumulated into `total_profit` exactly when the
exit-price fetch returned a nonzero price — a failed (zero) price
fetch leaves `total_profit` unchanged even though the sell reports
success. -/
theorem C5_amended_thm (cfg : BotConfig) (token : String) (pm : ℚ) (slip : ℤ)
    (env : ℕ → AttemptEnv) (st : BotState)
    (h : (execute_trade cfg token .SELL pm slip env st).success = true) :
    ∃ j < 4, ∃ ti : TokenInfo,
      verify_token_balance (env j).verifyReads = (true, some ti) ∧
      0 < ti.raw_amount ∧
      (∃ pre, (execute_trade cfg token .SELL pm slip env st).ops =
        pre ++ [NetOp.swapRequest ⟨token, cfg.sol_mint, ti.raw_amount, slip,
          pyInt (1 / 10000 * 10 ^ 9 * pm), cfg.wallet_address, "raydium"⟩,
          NetOp.sendTransaction, NetOp.priceFetch]) ∧
      (execute_trade cfg token .SELL pm slip env st).finalState.currentPosition = none ∧
      (execute_trade cfg token .SELL pm slip env st).finalState.positionOpenTime = none ∧
      (execute_trade cfg token .SELL pm slip env st).finalState.cooldownEndTime =
        (env j).fillTime + 15 ∧
      (execute_trade cfg token .SELL pm slip env st).finalState.totalProfit =
        (if (env j).priceAtFill = 0 then st.totalProfit
         else st.totalProfit + ((env j).priceAtFill - st.buyPrice) * ti.ui_amount) := by
  unfold execute_trade at h ⊢
  rcases execLoop_final cfg token .SELL pm slip env 4 0 st [] [] 0 with
    ⟨_, hf⟩ | ⟨j, st2, aops, hj0, hj4, hrun, hfin, pre, hops⟩
  · rw [h] at hf
    cases hf
  · rw [h] at hrun
    obtain ⟨ti, hv, hraw, haops, hpos, hopen, hcool, _, hprofit⟩ :=
      sellAttempt_done_true cfg token pm slip (env j) st st2 aops hrun
    refine ⟨j, by omega, ti, hv, hraw, ?_, ?_, ?_, ?_, ?_⟩
    · refine ⟨pre ++ List.replicate (verifyReadsConsumed (env j).verifyReads)
        NetOp.getAccountInfo, ?_⟩
      rw [hops, haops, List.append_assoc]
    · rw [hfin]
      exact hpos
    · rw [hfin]
      exact hopen
    · rw [hfin]
      exact hcool
    · rw [hfin]
      exact hprofit

/-- Claim C5 (amended), witness: a concrete successful sell at exit
price 3 with buy price 2 and 100 ui tokens held. -/
theorem C5_amended_witness :
    ∃ j < 4, ∃ ti : TokenInfo,
      verify_token_balance ((fun _ : ℕ => envSellOk) j).verifyReads = (true, some ti) ∧
      0 < ti.raw_amount ∧
      (∃ pre, (execute_trade cfgC "TOK" .SELL 1 2000 (fun _ => envSellOk) stC).ops =
        pre ++ [NetOp.swapRequest ⟨"TOK", cfgC.sol_mint, ti.raw_amount, 2000,
          pyInt (1 / 10000 * 10 ^ 9 * 1), cfgC.wallet_address, "raydium"⟩,
          NetOp.sendTransaction, NetOp.priceFetch]) ∧
      (execute_trade cfgC "TOK" .SELL 1 2000 (fun _ => envSellOk) stC).finalState.currentPosition = none ∧
      (execute_trade cfgC "TOK" .SELL 1 2000 (fun _ => envSellOk) stC).finalState.positionOpenTime = none ∧
      (execute_trade cfgC "TOK" .SELL 1 2000 (fun _ => envSellOk) stC).finalState.cooldownEndTime =
        ((fun _ : ℕ => envSellOk) j).fillTime + 15 ∧
      (execute_trade cfgC "TOK" .SELL 1 2000 (fun _ => envSellOk) stC).finalState.totalProfit =
        (if ((fun _ : ℕ => envSellOk) j).priceAtFill = 0 then stC.totalProfit
         else stC.totalProfit + (((fun _ : ℕ => envSellOk) j).priceAtFill - stC.buyPrice) * ti.ui_amount) :=
  C5_amended_thm cfgC "TOK" 1 2000 (fun _ => envSellOk) stC rfl

/-! ## Claim C6 -/

/-- Claim C6, counterexample: a successful BUY increments
`trades_executed` (`swap.py:293`), so the statistics are not mutated
only on a successful sell. -/
theorem C6_counterexample :
    (execute_trade cfgC "TOK" .BUY 1 2000 (fun _ => envBuyOk) stC).success = true ∧
    stC.tradesExecuted = 0 ∧
    (execute_trade cfgC "TOK" .BUY 1 2000 (fun _ => envBuyOk) stC).finalState.tradesExecuted = 1 := by
  refine ⟨?_, rfl, ?_⟩ <;>
    norm_num [execute_trade, execLoop, runAttempt, buyAttempt, afterParams,
      pyInt_eval, envBuyOk, stC, cfgC]

/-- Claim C6 (amended): `total_profit` is mutated only by a successful
SELL, and `trades_executed` is mutated only by a successful BUY — a
BUY never touches the profit accumulator, a SELL never touches the
trade counter, and any failed call leaves both untouched. -/
theorem C6_amended_thm (cfg : BotConfig) (token : String) (action : TradeAction)
    (pm : ℚ) (slip : ℤ) (env : ℕ → AttemptEnv) (st : BotState) :
    (action = .BUY →
      (execute_trade cfg token action pm slip env st).finalState.totalProfit = st.totalProfit ∧
      (execute_trade cfg token action pm slip env st).finalState.tradesExecuted =
        st.tradesExecuted +
          (if (execute_trade cfg token action pm slip env st).success then 1 else 0)) ∧
    (action = .SELL →
      (execute_trade cfg token action pm slip env st).finalState.tradesExecuted =
        st.tradesExecuted ∧
      ((execute_trade cfg token action pm slip env st).success = false →
        (execute_trade cfg token action pm slip env st).finalState.totalProfit =
          st.totalProfit)) := by
  unfold execute_trade
  rcases execLoop_final cfg token action pm slip env 4 0 st [] [] 0 with
    ⟨hfin, hsucc⟩ | ⟨j, st2, aops, _, _, hrun, hfin, _, _⟩
  · constructor
    · intro _
      rw [hfin, hsucc]
      simp
    · intro _
      rw [hfin]
      exact ⟨rfl, fun _ => rfl⟩
  · constructor
    · intro ha
      subst ha
      obtain ⟨hp, ht⟩ := buyAttempt_frame cfg token (env j) st st2 aops _ hrun
      rw [hfin]
      exact ⟨hp, ht⟩
    · intro ha
      subst ha
      obtain ⟨ht, hs⟩ := sellAttempt_frame cfg token pm slip (env j) st st2 aops _ hrun
      rw [hfin]
      refine ⟨ht, fun hf => ?_⟩
      rw [hs hf]

/-- Claim C6 (amended), witness: the concrete successful BUY leaves
`total_profit` unchanged while incrementing the trade counter. -/
theorem C6_amended_witness :
    (execute_trade cfgC "TOK" .BUY 1 2000 (fun _ => envBuyOk) stC).finalState.totalProfit =
      stC.totalProfit ∧
    (execute_trade cfgC "TOK" .BUY 1 2000 (fun _ => envBuyOk) stC).finalState.tradesExecuted =
      stC.tradesExecuted +
        (if (execute_trade cfgC "TOK" .BUY 1 2000 (fun _ => envBuyOk) stC).success then 1 else 0) :=
  (C6_amended_thm cfgC "TOK" .BUY 1 2000 (fun _ => envBuyOk) stC).1 rfl

/-! ## Claim C10 -/

/-- Claim C10: whenever `execute_trade` returns true for a BUY, the
recorded buy price is the fetched price and is nonzero — a failed or
zero price fetch fails the whole buy (`swap.py:286-289`) — and under
the assumption that the price oracle never returns a negative price it
is strictly positive, so the monitor's profit-percentage division by
`buy_price` is never a division by zero for a position opened by a
successful buy. -/
theorem C10_buy_price_positive (cfg : BotConfig) (token : String) (pm : ℚ)
    (slip : ℤ) (env : ℕ → AttemptEnv) (st : BotState)
    (h : (execute_trade cfg token .BUY pm slip env st).success = true)
    (hnn : ∀ k, 0 ≤ (env k).priceAtFill) :
    (execute_trade cfg token .BUY pm slip env st).finalState.buyPrice ≠ 0 ∧
    0 < (execute_trade cfg token .BUY pm slip env st).finalState.buyPrice := by
  unfold execute_trade at h ⊢
  rcases execLoop_final cfg token .BUY pm slip env 4 0 st [] [] 0 with
    ⟨_, hf⟩ | ⟨j, st2, aops, _, _, hrun, hfin, _, _⟩
  · rw [h] at hf
    cases hf
  · rw [h] at hrun
    obtain ⟨hbp, hne, _, _, _⟩ := buyAttempt_done_true cfg token (env j) st st2 aops hrun
    rw [hfin, hbp]
    exact ⟨hne, lt_of_le_of_ne (hnn j) (Ne.symm hne)⟩

/-- Claim C10, witness: the concrete successful BUY records the
positive price 3. -/
theorem C10_buy_price_positive_witness :
    (execute_trade cfgC "TOK" .BUY 1 2000 (fun _ => envBuyOk) stC).finalState.buyPrice ≠ 0 ∧
    0 < (execute_trade cfgC "TOK" .BUY 1 2000 (fun _ => envBuyOk) stC).finalState.buyPrice :=
  C10_buy_price_positive cfgC "TOK" 1 2000 (fun _ => envBuyOk) stC
    (by norm_num [execute_trade, execLoop, runAttempt, buyAttempt, afterParams,
      pyInt_eval, envBuyOk, stC, cfgC])
    (fun _ => by show (0 : ℚ) ≤ envBuyOk.priceAtFill; decide)

/-! ## Claim C9 -/

/-- On the BUY action, `runAttempt` ignores the priority multiplier
and slippage arguments entirely. -/
theorem runAttempt_BUY (cfg : BotConfig) (token : String) (pm : ℚ) (slip : ℤ)
    (a : AttemptEnv) (st : BotState) :
    runAttempt cfg token .BUY pm slip a st = buyAttempt cfg token a st := rfl

/-- The whole attempt loop on the BUY action is independent of the
priority multiplier and slippage arguments. -/
theorem execLoop_BUY_args (cfg : BotConfig) (token : String) (pm1 : ℚ)
    (s1 : ℤ) (pm2 : ℚ) (s2 : ℤ) (env : ℕ → AttemptEnv) :
    ∀ (n k : ℕ) (st : BotState) (ops : List NetOp) (d : List ℚ) (u : ℕ),
      execLoop cfg token .BUY pm1 s1 env n k st ops d u =
      execLoop cfg token .BUY pm2 s2 env n k st ops d u := by
  intro n
  induction n with
  | zero => intro k st ops d u; rfl
  | succ n ih =>
      intro k st ops d u
      simp only [execLoop, runAttempt_BUY]
      cases h : buyAttempt cfg token (env k) st with
      | done b st2 aops => rfl
      | netTransient aops =>
          by_cases hk : k < 3
          · simp only [if_pos hk]
            exact ih (k + 1) st (ops ++ aops) (d ++ [delayF k]) (u + 1)
          · simp only [if_neg hk]
      | rpcTransient aops =>
          exact ih (k + 1) st (ops ++ aops) (d ++ [delayF k]) (u + 1)

/-- Every network operation of the shared attempt tail is from the
accumulated prefix, the issued swap request, the transaction send, or
the price fetch. -/
theorem afterParams_ops_sub (token : String) (action : TradeAction)
    (si : Option TokenInfo) (params : SwapParams) (a : AttemptEnv)
    (st : BotState) (ops0 : List NetOp) :
    ∀ x ∈ attemptOps (afterParams token action si params a st ops0),
      x ∈ ops0 ∨ x = NetOp.swapRequest params ∨ x = NetOp.sendTransaction ∨
        x = NetOp.priceFetch := by
  intro x hx
  by_cases h1 : a.swapNetError
  · simp only [afterParams, h1, if_true, attemptOps] at hx
    rcases List.mem_append.mp hx with hx | hx
    · exact Or.inl hx
    · simp at hx
      exact Or.inr (Or.inl hx)
  · by_cases h2 : a.swapSuccess
    · by_cases h3 : a.txNetError
      · simp only [afterParams, h1, h2, h3] at hx
        simp only [if_false, if_true, Bool.not_true, attemptOps] at hx
        rcases List.mem_append.mp hx with hx | hx
        · rcases List.mem_append.mp hx with hx | hx
          · exact Or.inl hx
          · simp at hx
            exact Or.inr (Or.inl hx)
        · simp at hx
          exact Or.inr (Or.inr (Or.inl hx))
      · cases h4 : a.rpcError with
        | some msg =>
            by_cases h5 : isTransientMsg msg
            all_goals
              simp only [afterParams, h1, h2, h3, h4, h5, Bool.false_eq_true,
                if_false, if_true, Bool.not_true, Bool.not_false, ite_true,
                ite_false, attemptOps] at hx
            all_goals
              rcases List.mem_append.mp hx with hx | hx
              · rcases List.mem_append.mp hx with hx | hx
                · exact Or.inl hx
                · simp at hx
                  exact Or.inr (Or.inl hx)
              · simp at hx
                exact Or.inr (Or.inr (Or.inl hx))
        | none =>
            have hx' : x ∈ ((ops0 ++ [NetOp.swapRequest params]) ++
                [NetOp.sendTransaction]) ++ [NetOp.priceFetch] := by
              cases action with
              | BUY =>
                  by_cases h6 : a.priceAtFill = 0
                  all_goals
                    simp only [afterParams, h1, h2, h3, h4, h6, Bool.false_eq_true,
                      if_false, if_true, Bool.not_true, Bool.not_false, ite_true,
                      ite_false, attemptOps] at hx
                  all_goals exact hx
              | SELL =>
                  simp only [afterParams, h1, h2, h3, h4, Bool.false_eq_true,
                    if_false, if_true, Bool.not_true, Bool.not_false,
                    attemptOps] at hx
                  exact hx
            rcases List.mem_append.mp hx' with hx | hx
            · rcases List.mem_append.mp hx with hx | hx
              · rcases List.mem_append.mp hx with hx | hx
                · exact Or.inl hx
                · simp at hx
                  exact Or.inr (Or.inl hx)
              · simp at hx
                exact Or.inr (Or.inr (Or.inl hx))
            · simp at hx
              exact Or.inr (Or.inr (Or.inr hx))
    · simp only [afterParams, h1, h2, Bool.false_eq_true, if_false, if_true,
        Bool.not_true, Bool.not_false, ite_true, ite_false, attemptOps] at hx
      rcases List.mem_append.mp hx with hx | hx
      · exact Or.inl hx
      · simp at hx
        exact Or.inr (Or.inl hx)

/-- The fixed priority fee of the BUY path:
`int(Decimal('0.0001') * 10**9) = 100000` micro-lamports. -/
theorem pyInt_priority : pyInt (1 / 10000 * 10 ^ 9) = 100000 := by
  norm_num [pyInt_eval]

/-- Every swap request a BUY attempt issues carries slippage 3000 and
priority fee 100000, whatever the caller's arguments were. -/
theorem buyAttempt_swapRequest (cfg : BotConfig) (token : String)
    (a : AttemptEnv) (st : BotState) :
    ∀ x ∈ attemptOps (buyAttempt cfg token a st), ∀ q,
      x = NetOp.swapRequest q →
      q.slippage = 3000 ∧ q.priorityMicroLamports = 100000 := by
  intro x hx q hq
  rw [buyAttempt] at hx
  by_cases h1 : a.nowTime < st.cooldownEndTime
  · rw [if_pos h1] at hx
    simp [attemptOps] at hx
  · rw [if_neg h1] at hx
    by_cases h2 : a.solBalance < 1 / 10000
    · rw [if_pos h2] at hx
      simp [attemptOps] at hx
      simp [hx] at hq
    · rw [if_neg h2] at hx
      rcases afterParams_ops_sub token .BUY none _ a st [.getSolBalance] x hx with
        hx' | hx' | hx' | hx'
      · simp at hx'
        simp [hx'] at hq
      · subst hx'
        cases hq
        exact ⟨rfl, pyInt_priority⟩
      · simp [hx'] at hq
      · simp [hx'] at hq

/-- Claim C9: the BUY path of `execute_trade` is independent of its
`priority_multiplier` and `slippage_bps` arguments — two BUY calls
differing only in those arguments produce the identical outcome
(result, state, network operations, swap requests, attempts, delays) —
and every swap request a BUY issues uses slippage 3000 and the fixed
priority fee of 100000 micro-lamports. -/
theorem C9_buy_args_irrelevant (cfg : BotConfig) (token : String) (pm1 : ℚ)
    (s1 : ℤ) (pm2 : ℚ) (s2 : ℤ) (env : ℕ → AttemptEnv) (st : BotState) :
    execute_trade cfg token .BUY pm1 s1 env st =
      execute_trade cfg token .BUY pm2 s2 env st ∧
    ∀ p, NetOp.swapRequest p ∈ (execute_trade cfg token .BUY pm1 s1 env st).ops →
      p.slippage = 3000 ∧ p.priorityMicroLamports = 100000 := by
  constructor
  · unfold execute_trade
    exact execLoop_BUY_args cfg token pm1 s1 pm2 s2 env 4 0 st [] [] 0
  · intro p hp
    have hpred := execLoop_ops_pred cfg token .BUY pm1 s1 env
      (fun x => ∀ q, x = NetOp.swapRequest q →
        q.slippage = 3000 ∧ q.priorityMicroLamports = 100000)
      (fun j st' x hx => buyAttempt_swapRequest cfg token (env j) st' x hx)
      4 0 st [] [] 0 (by simp)
    exact hpred (NetOp.swapRequest p) hp p rfl

/-- Claim C9, witness at concrete diverging arguments. -/
theorem C9_buy_args_irrelevant_witness :
    execute_trade cfgC "TOK" .BUY 1 2000 (fun _ => envBuyOk) stC =
      execute_trade cfgC "TOK" .BUY 7 5000 (fun _ => envBuyOk) stC :=
  (C9_buy_args_irrelevant cfgC "TOK" 1 2000 7 5000 (fun _ => envBuyOk) stC).1

/-! ## Claim C7 -/

/-- The sell-escalation loop, entered at `retry_count = k`, emits
exactly a contiguous slice of the schedule starting at index `k`. -/
theorem sellEscalation_spec (outcome : ℕ → SellAttemptOutcome) :
    ∀ (fuel k : ℕ) (acc : List (ℚ × ℤ)),
      ∃ m, sellEscalation outcome fuel k acc = acc ++ (sellSchedule.drop k).take m := by
  intro fuel
  induction fuel with
  | zero =>
      intro k acc
      exact ⟨0, by simp [sellEscalation]⟩
  | succ fuel ih =>
      intro k acc
      by_cases hk : k < 4
      · have hone : (sellSchedule.drop k).take 1 =
            [(multipliers.getD k 0, slippages.getD k 0)] := by
          interval_cases k <;> rfl
        cases ho : outcome k with
        | sold =>
            refine ⟨1, ?_⟩
            simp only [sellEscalation, if_pos hk, ho]
            rw [hone]
        | failLost =>
            refine ⟨1, ?_⟩
            simp only [sellEscalation, if_pos hk, ho]
            rw [hone]
        | failStillHeld =>
            obtain ⟨m, hm⟩ :=
              ih (k + 1) (acc ++ [(multipliers.getD k 0, slippages.getD k 0)])
            refine ⟨m + 1, ?_⟩
            simp only [sellEscalation, if_pos hk, ho]
            rw [hm]
            have hstep : (sellSchedule.drop k).take (m + 1) =
                (multipliers.getD k 0, slippages.getD k 0) ::
                  (sellSchedule.drop (k + 1)).take m := by
              interval_cases k <;>
                simp [sellSchedule, multipliers, slippages, List.take_succ_cons]
            rw [hstep]
            simp
      · exact ⟨0, by simp [sellEscalation, hk]⟩

/-- Claim C7: across one exit sequence, the monitor's sell attempts
use exactly the tuples of the schedule
`[(1.0, 2000), (1.5, 3000), (2.0, 4000), (3.0, 5000)]` in order —
attempt `k` always receives the `k`-th tuple — and at most 4 sell
attempts are driven. -/
theorem C7_sell_schedule (outcome : ℕ → SellAttemptOutcome) :
    ∃ m, sellAttemptParams outcome = sellSchedule.take m ∧
      (sellAttemptParams outcome).length ≤ 4 := by
  obtain ⟨m, hm⟩ := sellEscalation_spec outcome 4 0 []
  rw [sellAttemptParams, hm]
  refine ⟨m, by simp, ?_⟩
  simp only [List.nil_append, List.drop_zero]
  have hlen : sellSchedule.length = 4 := by decide
  rw [List.length_take, hlen]
  omega

/-- Claim C7, witness: with every attempt failing while the balance
persists, all four schedule tuples are used in order. -/
theorem C7_sell_schedule_witness :
    ∃ m, sellAttemptParams (fun _ => SellAttemptOutcome.failStillHeld) =
      sellSchedule.take m ∧
    (sellAttemptParams (fun _ => SellAttemptOutcome.failStillHeld)).length ≤ 4 :=
  C7_sell_schedule (fun _ => SellAttemptOutcome.failStillHeld)

/-! ## Claim C8 -/

/-- Claim C8: with a usable (nonzero) current price, the monitor's
exit triggers are evaluated first-match-wins with the profit target
before the timeout: profit ≥ 15% exits on the profit target whatever
the holding time; only when profit < 15% does a holding time ≥ 20
minutes trigger the timeout exit; and below both thresholds there is
no exit. -/
theorem C8_exit_order (buy cur t : ℚ) (hcur : cur ≠ 0) :
    (15 ≤ profitPct buy cur →
      monitorExitCheck buy cur t = some ExitReason.profitTarget) ∧
    (profitPct buy cur < 15 → 20 * 60 ≤ t →
      monitorExitCheck buy cur t = some ExitReason.timeout) ∧
    (profitPct buy cur < 15 → t < 20 * 60 →
      monitorExitCheck buy cur t = none) := by
  unfold monitorExitCheck exitTrigger
  rw [if_neg hcur]
  refine ⟨fun h => ?_, fun h1 h2 => ?_, fun h1 h2 => ?_⟩
  · rw [if_pos h]
  · rw [if_neg (not_le.mpr h1), if_pos h2]
  · rw [if_neg (not_le.mpr h1), if_neg (not_le.mpr h2)]

/-- Claim C8, witness at the scenario: profit 16% at holding time
5 minutes triggers the profit-target exit, not the timeout. -/
theorem C8_exit_order_witness :
    monitorExitCheck 100 116 300 = some ExitReason.profitTarget := by
  have h := C8_exit_order 100 116 300 (by norm_num)
  exact h.1 (by norm_num [profitPct])

end RayScalper
